import Mathlib

/-!
Verification of the natural-language specification of `edgar_bot.py`
(a single-file M&A feed monitor) against a shallow embedding of its code.

The embedding models Python regular-expression search with a small
backtracking matcher over `List Char` whose preference order (leftmost
position first, alternation left-first, greedy repetition longest-first,
lazy repetition shortest-first) mirrors the `re` module on the pattern
subset appearing in the source.  Characters are treated as ASCII, which
matches every pattern and input class the program manipulates.
Network and library effects (HTTP fetches, HTML-to-text conversion,
the Yahoo search and price services, the Telegram POST) are modelled as
oracle fields of a `World` structure; a `none` result stands for the
caught exception paths in the source.
-/

namespace EdgarBot

/-! ## Regex engine

A matcher state: recorded capture groups, the previously consumed
character (needed for word boundaries), and the remaining input. -/

structure MState where
  caps : List (Nat × List Char)
  prev : Option Char
  rest : List Char
deriving Repr, DecidableEq

/-- Regex abstract syntax: empty string, single-character class,
concatenation, alternation (left branch preferred), greedy star,
capture group, and word boundary.  Bounded repetitions and optionals
of the source patterns are desugared into these constructors. -/
inductive Regex where
  | eps
  | cls (p : Char → Bool)
  | seq (a b : Regex)
  | alt (a b : Regex)
  | star (a : Regex)
  | group (idx : Nat) (a : Regex)
  | wordB

/-- Class `\w`: ASCII word characters. -/
def isWordChar (c : Char) : Bool := c.isAlphanum || c = '_'

/-- Python whitespace class `\s` restricted to ASCII. -/
def isSpacePy (c : Char) : Bool :=
  c = ' ' || c = '\t' || c = '\n' || c = '\r' || c.toNat = 11 || c.toNat = 12

/-- Iterate the matcher of a star body.  The fuel starts at the length of
the remaining input; every iteration is required to consume at least one
character (the source star bodies always do), so the fuel suffices. -/
def iterStar (f : MState → List MState) : Nat → MState → List MState
  | 0, st => [st]
  | n + 1, st =>
      ((f st).flatMap (fun s =>
        if s.rest.length < st.rest.length then iterStar f n s else [])) ++ [st]

/-- All ways a regex can match a prefix of the state's remaining input,
in backtracking preference order (the head is what Python `re` commits
to). -/
def matchEnds : Regex → MState → List MState
  | .eps, st => [st]
  | .cls p, st =>
      match st.rest with
      | [] => []
      | c :: cs => if p c then [⟨st.caps, some c, cs⟩] else []
  | .seq a b, st => (matchEnds a st).flatMap (matchEnds b)
  | .alt a b, st => matchEnds a st ++ matchEnds b st
  | .group i a, st =>
      (matchEnds a st).map (fun s =>
        ⟨(i, st.rest.take (st.rest.length - s.rest.length)) :: s.caps, s.prev, s.rest⟩)
  | .wordB, st =>
      let before := match st.prev with | none => false | some c => isWordChar c
      let after := match st.rest with | [] => false | c :: _ => isWordChar c
      if before ≠ after then [st] else []
  | .star a, st => iterStar (matchEnds a) st.rest.length st

/-- Model of `re.search` semantics: try each start position from the left; return
the captures of the first (preferred) match at the first position that
matches, together with that position. -/
def reSearchIdxAux (r : Regex) (prev : Option Char) (s : List Char) (i : Nat) :
    Option (Nat × List (Nat × List Char)) :=
  match matchEnds r ⟨[], prev, s⟩ with
  | st :: _ => some (i, st.caps)
  | [] =>
      match s with
      | [] => none
      | c :: cs => reSearchIdxAux r (some c) cs (i + 1)

def reSearchIdx (r : Regex) (s : String) : Option (Nat × List (Nat × List Char)) :=
  reSearchIdxAux r none s.data 0

def reSearch (r : Regex) (s : String) : Option (List (Nat × List Char)) :=
  (reSearchIdx r s).map (·.2)

/-- Boolean match test, as used for the classifier keyword patterns. -/
def reTest (r : Regex) (s : String) : Bool := (reSearch r s).isSome

/-- Model of `m.group(i)`: the most recently recorded capture for group `i`. -/
def capGroup (i : Nat) (caps : List (Nat × List Char)) : Option String :=
  (caps.find? (fun x => x.1 = i)).map (fun x => String.mk x.2)

/-! Pattern construction helpers.  All source patterns are compiled with
`re.IGNORECASE`, so literals compare case-insensitively. -/

/-- Case-insensitive literal character. -/
def litCI (c : Char) : Regex := .cls (fun x => x.toLower = c.toLower)

/-- Case-sensitive literal character (used where case cannot matter). -/
def litc (c : Char) : Regex := .cls (fun x => x = c)

/-- Case-insensitive literal string. -/
def strCI (s : String) : Regex := (s.data.map litCI).foldr .seq .eps

/-- Greedy option `x?`. -/
def optG (a : Regex) : Regex := .alt a .eps

/-- Lazy option `x??` (empty branch preferred). -/
def optL (a : Regex) : Regex := .alt .eps a

/-- Repetition `x(n)`: exactly `n` copies. -/
def repExact (a : Regex) : Nat → Regex
  | 0 => .eps
  | n + 1 => .seq a (repExact a n)

/-- Greedy chain of up to `n` copies. -/
def repUptoG (a : Regex) : Nat → Regex
  | 0 => .eps
  | n + 1 => optG (.seq a (repUptoG a n))

/-- Lazy chain of up to `n` copies. -/
def repUptoL (a : Regex) : Nat → Regex
  | 0 => .eps
  | n + 1 => optL (.seq a (repUptoL a n))

/-- Greedy bounded repetition `x{lo,hi}`. -/
def repG (a : Regex) (lo hi : Nat) : Regex :=
  .seq (repExact a lo) (repUptoG a (hi - lo))

/-- Lazy bounded repetition `x{lo,hi}?`. -/
def repL (a : Regex) (lo hi : Nat) : Regex :=
  .seq (repExact a lo) (repUptoL a (hi - lo))

/-- Greedy `x+`. -/
def plusG (a : Regex) : Regex := .seq a (.star a)

def spc : Regex := .cls isSpacePy
def digit : Regex := .cls Char.isDigit
/-- Class `[A-Z]` under IGNORECASE: any ASCII letter. -/
def alpha : Regex := .cls Char.isAlpha

/-- Word-bounded pattern `\bx\b`. -/
def wb (a : Regex) : Regex := .seq .wordB (.seq a .wordB)

/-! ## The source patterns

Transcribed one-to-one from `POSITIVE_KEYWORDS`, `NEGATIVE_KEYWORDS`,
`TICKER_REGEX`, and the pattern lists inside `extract_offer_price` and
`extract_target_name` (all compiled with `re.IGNORECASE`). -/

/-- List `POSITIVE_KEYWORDS`, in source order. -/
def POSITIVE_PATTERNS : List Regex :=
  [ wb (strCI "acquisition"),
    wb (strCI "merger"),
    wb (.seq (strCI "acqui")
      (.group 1 (.alt (strCI "re") (.alt (strCI "sition") (strCI "ring"))))),
    wb (strCI "to acquire"),
    wb (strCI "acquires"),
    wb (strCI "buyout"),
    wb (strCI "takeover"),
    wb (strCI "merger of equals"),
    wb (.seq (strCI "stock") (.seq (.cls (fun c => c = '-' || c = ' '))
      (.seq (strCI "for") (.seq (.cls (fun c => c = '-' || c = ' ')) (strCI "stock"))))),
    wb (strCI "tender offer"),
    wb (strCI "exchange offer"),
    wb (.seq (strCI "enters into ")
      (.seq (optG (.group 1 (strCI "exclusive "))) (strCI "discussions"))),
    wb (strCI "proposed acquisition"),
    wb (strCI "agreement to acquire"),
    wb (strCI "definitive agreement") ]

/-- List `NEGATIVE_KEYWORDS`, in source order. -/
def NEGATIVE_PATTERNS : List Regex :=
  [ wb (strCI "completed"),
    wb (.seq (strCI "closing") (optG (strCI " of"))),
    wb (strCI "effective as of"),
    wb (strCI "finalized"),
    wb (strCI "concluded"),
    wb (strCI "settled") ]

/-- Pattern `TICKER_REGEX`:
`(?:NYSE|NASDAQ|AMEX|OTC(?:QB|QX)?|TSX(?:V)?|NEO):?\s*([A-Z]\x7b1,5\x7d(?:\.[A-Z]\x7b1,2\x7d)?)\b`. -/
def TICKER_REGEX : Regex :=
  .seq
    (.alt (strCI "NYSE") (.alt (strCI "NASDAQ") (.alt (strCI "AMEX")
      (.alt (.seq (strCI "OTC") (optG (.alt (strCI "QB") (strCI "QX"))))
        (.alt (.seq (strCI "TSX") (optG (strCI "V"))) (strCI "NEO"))))))
    (.seq (optG (litc ':'))
      (.seq (.star spc)
        (.seq (.group 1 (.seq (repG alpha 1 5)
            (optG (.seq (litc '.') (repG alpha 1 2)))))
          .wordB)))

/-- The shared dollar-amount tail
`\$\s*([0-9]\x7b1,3\x7d(?:,[0-9]\x7b3\x7d)*(?:\.[0-9]\x7b1,2\x7d)?)` of every
`extract_offer_price` pattern; it is also the first pattern of the list. -/
def dollarAmountRe : Regex :=
  .seq (litc '$')
    (.seq (.star spc)
      (.group 1 (.seq (repG digit 1 3)
        (.seq (.star (.seq (litc ',') (repExact digit 3)))
          (optG (.seq (litc '.') (repG digit 1 2)))))))

/-- The pattern list of `extract_offer_price`, in source order. -/
def offerPricePatterns : List Regex :=
  [ dollarAmountRe,
    .seq (strCI "for") (.seq (.star spc) dollarAmountRe),
    .seq (strCI "at") (.seq (.star spc) dollarAmountRe),
    .seq (strCI "per share") (.seq (.star spc) dollarAmountRe),
    .seq (strCI "consideration of") (.seq (.star spc) dollarAmountRe) ]

/-- The character class `[\w\s&\x27\.-]` of the target-name patterns. -/
def nameChar : Regex :=
  .cls (fun c => isWordChar c || isSpacePy c || c = '&' || c.toNat = 39 ||
    c = '.' || c = '-')

/-- A lazily repeated target-name capture `(...\x7b5,40\x7d?)\b` with the
given group index. -/
def targetCapture (g : Nat) : Regex :=
  .seq (.group g (repL nameChar 5 40)) .wordB

/-- The pattern list of `extract_target_name` paired with the group index
the source reads (`m.group(1)` for single-group patterns, `m.group(2)`
when the pattern has two groups). -/
def targetNamePatterns : List (Regex × Nat) :=
  [ (.seq (strCI "to") (.seq (plusG spc) (.seq (strCI "acquire")
      (.seq (plusG spc) (targetCapture 1)))), 1),
    (.seq (strCI "acqui")
      (.seq (.group 1 (.alt (strCI "sition") (strCI "ring")))
        (.seq (plusG spc) (.seq (strCI "of") (.seq (plusG spc) (targetCapture 2))))), 2),
    (.seq (strCI "merger") (.seq (plusG spc) (.seq (strCI "with")
      (.seq (plusG spc) (targetCapture 1)))), 1),
    (.seq (strCI "agreement") (.seq (plusG spc) (.seq (strCI "to")
      (.seq (plusG spc) (.seq (strCI "acquire")
        (.seq (plusG spc) (targetCapture 1)))))), 1),
    (.seq (strCI "enters into discussions to acquire ") (targetCapture 1), 1) ]

/-! ## Pure text helpers of the source -/

/-- ASCII model of Python `str.upper` on one character. -/
def pyUpperChar (c : Char) : Char :=
  if 97 ≤ c.toNat ∧ c.toNat ≤ 122 then Char.ofNat (c.toNat - 32) else c

/-- ASCII model of Python `str.lower` on one character. -/
def pyLowerChar (c : Char) : Char :=
  if 65 ≤ c.toNat ∧ c.toNat ≤ 90 then Char.ofNat (c.toNat + 32) else c

/-- ASCII model of Python `str.lower`. -/
def pyLower (s : String) : String := String.mk (s.data.map pyLowerChar)

/-- One character of `.upper().replace(".", "-")` in `extract_ticker`
(both operations act characterwise). -/
def normChar (c : Char) : Char :=
  if pyUpperChar c = '.' then '-' else pyUpperChar c

/-- The normalization `m.group(1).upper().replace(".", "-")` applied to a
captured ticker token. -/
def normalizeTicker (s : String) : String := String.mk (s.data.map normChar)

/-- Function `extract_ticker` (src lines 126-129): search `TICKER_REGEX`, then
normalize the captured symbol. -/
def extract_ticker (text : String) : Option String :=
  ((reSearch TICKER_REGEX text).bind (capGroup 1)).map normalizeTicker

/-- Python truthiness of an optional string: `None` and `""` are falsy. -/
def truthy : Option String → Bool
  | none => false
  | some s => s ≠ ""

/-- Python `a or b` on optional strings (the empty string is falsy). -/
def pyOr (a b : Option String) : Option String :=
  if truthy a then a else b

/-- Python `str.strip()`: drop leading and trailing whitespace. -/
def pyStrip (s : String) : String :=
  String.mk (((s.data.dropWhile isSpacePy).reverse.dropWhile isSpacePy).reverse)

/-- Value of a digit list read in base ten. -/
def digitsVal (ds : List Char) : Nat :=
  ds.foldl (fun n c => n * 10 + (c.toNat - 48)) 0

/-- Model of `float(s.replace(",", ""))` on a captured dollar amount:
strip thousands separators, then parse `digits` or `digits.digits`.
`none` models the `ValueError` branch of the source. -/
def parseDec (s : List Char) : Option ℚ :=
  let t := s.filter (fun c => c ≠ ',')
  let intPart := t.takeWhile (fun c => c ≠ '.')
  let rest := t.dropWhile (fun c => c ≠ '.')
  if intPart = [] ∨ ¬ intPart.all Char.isDigit then none
  else
    match rest with
    | [] => some (digitsVal intPart : ℚ)
    | _ :: frac =>
        if frac = [] ∨ ¬ frac.all Char.isDigit then none
        else some ((digitsVal intPart : ℚ) + (digitsVal frac : ℚ) / (10 : ℚ) ^ frac.length)

/-- Function `extract_offer_price` (src lines 107-124): try the ordered pattern
list; on a match, return the parsed capture, falling through to the next
pattern when parsing fails (the `ValueError` branch). -/
def offerPriceLoop (text : String) : List Regex → Option ℚ
  | [] => none
  | p :: ps =>
      match reSearch p text with
      | none => offerPriceLoop text ps
      | some caps =>
          match (capGroup 1 caps).bind (fun s => parseDec s.data) with
          | some v => some v
          | none => offerPriceLoop text ps

def extract_offer_price (text : String) : Option ℚ :=
  offerPriceLoop text offerPricePatterns

/-- Python `str.strip()` followed by `re.sub(pat, "", target)` with
`pat` matching one trailing punctuation character `[.,;:]` together with
surrounding whitespace, as in `extract_target_name`. -/
def cleanName (s : String) : String :=
  let t := (pyStrip s).data
  match t.reverse with
  | [] => ""
  | c :: rest =>
      if c = '.' ∨ c = ',' ∨ c = ';' ∨ c = ':' then
        String.mk (rest.dropWhile isSpacePy).reverse
      else String.mk t

/-- Function `extract_target_name` (src lines 163-179): first matching pattern
wins; the captured group (1 or 2 per pattern) is cleaned and returned. -/
def targetNameLoop (text : String) : List (Regex × Nat) → Option String
  | [] => none
  | (p, g) :: ps =>
      match reSearch p text with
      | none => targetNameLoop text ps
      | some caps => (capGroup g caps).map cleanName

def extract_target_name (text : String) : Option String :=
  targetNameLoop text targetNamePatterns

/-! ## External collaborators and data model

Feed fetching, HTML-to-text conversion, the Yahoo endpoints and the
Telegram POST are external collaborators of the source (spec section 1);
they are modelled as oracle functions.  A `none` oracle result stands
for the exception paths the source catches (`requests` errors,
`raise_for_status`, JSON errors). -/

/-- One entry of the Yahoo symbol-search response: `item.get("symbol")`
(with `""` standing for a missing or empty symbol, both falsy in the
source) and `item.get("quoteType")`. -/
structure Quote where
  symbol : String
  quoteType : String
deriving Repr, DecidableEq

/-- A parsed feed entry as the source reads it: `link`, optional
`title`, the three optional parsed-date attributes (modelled as integer
timestamps), the first `content` value when the content list is
nonempty, and the `summary` / `description` fallbacks. -/
structure Entry where
  link : String
  title : Option String
  updatedParsed : Option Int
  publishedParsed : Option Int
  createdParsed : Option Int
  content : Option String
  summary : Option String
  description : Option String

structure World where
  /-- Result of `BeautifulSoup(x, "html.parser").get_text()`. -/
  getText : String → String
  /-- Body of a successful `requests.get(url)`; `none` models a request
  exception or a `raise_for_status` failure. -/
  httpGet : String → Option String
  /-- The `quotes` array of the Yahoo symbol-search response; `none` models
  a request or JSON failure. -/
  searchQuotes : String → Option (List Quote)
  /-- Result of `get_market_price` via yfinance: the first available of
  `regularMarketPrice`, `previousClose`, `currentPrice`; `none` models a
  missing price or a caught exception. -/
  marketPrice : String → Option ℚ
  /-- Entries produced by `feedparser.parse(url)` (empty on a caught
  feed error). -/
  parseFeed : String → List Entry
  /-- Whether the Telegram POST succeeds; the source ignores this. -/
  telegramOk : String → Bool

/-- Telegram credentials from the environment. -/
structure Config where
  botToken : String
  chatID : String

/-- The module-level mutable state: `t_sent_links` and `latest_dates`
(total over feed names; only configured names are ever read). -/
structure BotState where
  sentLinks : List String
  latestDates : String → Int

/-- Structured content of one notification line, standing for the
formatted strings the source builds into `msg`. -/
inductive MsgPart where
  | header (feedName : String)
  | title (t : String)
  | ticker (t : String)
  | tickerSearching
  | date (d : Int)
  | link (l : String)
  | offerPrice (q : ℚ)
  | marketPrice (q : ℚ)
  | premium (q : ℚ)
  | potentialTarget (n : String)
deriving Repr, DecidableEq

/-- Observable effects of a processing step.  The source only ever
dispatches through `send_telegram_message`; `printOut` exists so that
the `--test-date` claim about printed notifications can be stated. -/
inductive Action where
  | sendTelegram (parts : List MsgPart)
  | printOut (parts : List MsgPart)
deriving Repr, DecidableEq

def isSendTelegram : Action → Bool
  | .sendTelegram _ => true
  | _ => false

def isPrintOut : Action → Bool
  | .printOut _ => true
  | _ => false

/-! ## The resolver and pricing functions -/

/-- The loop body of `lookup_ticker_by_name`: return the symbol of the
first quote whose symbol is truthy and whose `quoteType` is `"EQUITY"`
or `"ETF"` (src line 157). -/
def findQuote : List Quote → Option String
  | [] => none
  | q :: qs =>
      if q.symbol ≠ "" ∧ (q.quoteType = "EQUITY" ∨ q.quoteType = "ETF") then
        some q.symbol
      else findQuote qs

/-- Function `lookup_ticker_by_name` (src lines 143-161): empty names are
rejected up front; a failed search request yields `none`. -/
def lookup_ticker_by_name (w : World) (name : String) : Option String :=
  if name = "" then none
  else
    match w.searchQuotes name with
    | none => none
    | some quotes => findQuote quotes

/-- Function `fetch_full_text_ticker` (src lines 131-141): fetch the page, strip
markup, re-run the inline extraction; any request failure yields
`none`. -/
def fetch_full_text_ticker (w : World) (url : String) : Option String :=
  match w.httpGet url with
  | none => none
  | some body => extract_ticker (w.getText body)

/-- Function `get_market_price` (src lines 94-105), delegated to the market-data
oracle (the yfinance calls are an external collaborator). -/
def get_market_price (w : World) (ticker : String) : Option ℚ :=
  w.marketPrice ticker

/-! ## Classifier -/

inductive ClassificationResult where
  | Positive
  | NegativeOverride
  | NoMatch
deriving Repr, DecidableEq

def isCandidate : ClassificationResult → Bool
  | .Positive => true
  | _ => false

/-- The lowercased concatenation `f"TITLE. CONTENT".lower()` of src
line 220. -/
def classifierText (title content : String) : String :=
  pyLower (title ++ ". " ++ content)

/-- The classifier of src lines 220-232: any negative match rejects;
otherwise no positive match rejects; otherwise accept. -/
def classify (title content : String) : ClassificationResult :=
  let text := classifierText title content
  if NEGATIVE_PATTERNS.any (fun p => reTest p text) then .NegativeOverride
  else if ¬ POSITIVE_PATTERNS.any (fun p => reTest p text) then .NoMatch
  else .Positive

/-! ## Ticker resolution cascade (src lines 234-240) -/

/-- The cascade stages, recorded for the resolution trace:
inline extraction, the full-page fetch, and the name-based lookup block
(target-name lookup followed by title lookup). -/
inductive RStep where
  | inline
  | fullText
  | nameLookup
deriving Repr, DecidableEq

structure Resolved where
  ticker : Option String
  targetName : Option String
  steps : List RStep
deriving Repr, DecidableEq

/-- Src lines 234-240, instrumented with the list of attempted stages:
`ticker = extract_ticker(content) or fetch_full_text_ticker(link)`;
if falsy, look up a target name extracted from title or content; if
still falsy, look up the title itself.  Each stage runs only when every
earlier stage left `ticker` falsy; all failures are already `none`
(caught in the stage functions), so the cascade is total. -/
def resolveTicker (w : World) (title content link : String) : Resolved :=
  let t1 := extract_ticker content
  if truthy t1 then ⟨t1, none, [.inline]⟩
  else
    let t2 := fetch_full_text_ticker w link
    if truthy t2 then ⟨t2, none, [.inline, .fullText]⟩
    else
      let targetName := pyOr (extract_target_name title) (extract_target_name content)
      let t3 := if truthy targetName then lookup_ticker_by_name w (targetName.getD "") else none
      if truthy t3 then ⟨t3, targetName, [.inline, .fullText, .nameLookup]⟩
      else ⟨lookup_ticker_by_name w title, targetName, [.inline, .fullText, .nameLookup]⟩

/-! ## Message assembly and dispatch -/

/-- Rounding to one decimal place, modelling the `:.1f` format of the
premium line (idealized as exact rational rounding). -/
def roundTo1 (x : ℚ) : ℚ := (round (x * 10) : ℤ) / 10

/-- The pricing lines of src lines 256-265: the offer-price line, the
market-price line, and the premium line.  The premium is computed only
when both prices are present; a zero market price raises
`ZeroDivisionError`, which the source catches and turns into omission
of the line. -/
def pricingLines (offer market : Option ℚ) : List MsgPart :=
  (match offer with
    | some o => [.offerPrice o]
    | none => []) ++
  (match market with
    | some m => [.marketPrice m]
    | none => []) ++
  (match offer, market with
    | some o, some m =>
        if m = 0 then [] else [.premium (roundTo1 ((o - m) / m * 100))]
    | _, _ => [])

/-- The notification `msg` of src lines 243-269.  The source builds a
four-line list and then inserts the ticker line at index 2; the result
is written here directly. -/
def buildMessage (w : World) (feedName title content : String) (pub : Int)
    (link : String) (r : Resolved) : List MsgPart :=
  if truthy r.ticker then
    let t := r.ticker.getD ""
    let marketPrice := get_market_price w t
    let offerPrice := extract_offer_price content
    [.header feedName, .title title, .ticker t, .date pub, .link link] ++
      pricingLines offerPrice marketPrice
  else
    [.header feedName, .title title, .tickerSearching, .date pub, .link link] ++
      (if truthy r.targetName then [.potentialTarget (r.targetName.getD "")] else [])

/-- Function `send_telegram_message` (src lines 79-92): with credentials missing
nothing is dispatched; otherwise the POST happens and its outcome
(`w.telegramOk`) is only logged, never propagated. -/
def send_telegram_message (cfg : Config) (parts : List MsgPart) : List Action :=
  if cfg.botToken = "" ∨ cfg.chatID = "" then []
  else [Action.sendTelegram parts]

/-! ## Entry processing (src lines 187-274) -/

/-- The publication date: the first present attribute among
`updated_parsed`, `published_parsed`, `created_parsed`. -/
def entryPubDate (e : Entry) : Option Int :=
  match e.updatedParsed with
  | some d => some d
  | none =>
      match e.publishedParsed with
      | some d => some d
      | none => e.createdParsed

/-- The value `(entry.title or "").strip()`. -/
def entryTitle (e : Entry) : String := pyStrip (e.title.getD "")

/-- The raw content choice of src lines 210-214. -/
def entryRawContent (e : Entry) : String :=
  match e.content with
  | some c => c
  | none => e.summary.getD (e.description.getD "")

/-- The stripped text content of src line 215. -/
def entryContent (w : World) (e : Entry) : String :=
  w.getText (entryRawContent e)

/-- Advance one feed cursor to `max(cursor, pub)`. -/
def advanceCursor (st : BotState) (feedName : String) (pub : Int) : BotState :=
  { st with latestDates := fun n =>
      if n = feedName then max (st.latestDates feedName) pub else st.latestDates n }

/-- Function `process_entry` (src lines 187-274) as a state transition returning
the successor state and the emitted actions.  Entries without a date
are skipped; entries at or before the cursor or with an already-seen
link are skipped; classifier rejections only advance the cursor;
accepted entries are resolved, notified, marked seen, and advance the
cursor. -/
def process_entry (cfg : Config) (w : World) (feedName : String) (e : Entry)
    (st : BotState) : BotState × List Action :=
  match entryPubDate e with
  | none => (st, [])
  | some pub =>
      if pub ≤ st.latestDates feedName ∨ e.link ∈ st.sentLinks then (st, [])
      else
        let title := entryTitle e
        let content := entryContent w e
        match classify title content with
        | .NegativeOverride => (advanceCursor st feedName pub, [])
        | .NoMatch => (advanceCursor st feedName pub, [])
        | .Positive =>
            let r := resolveTicker w title content e.link
            let msg := buildMessage w feedName title content pub e.link r
            ({ sentLinks := e.link :: st.sentLinks,
               latestDates := (advanceCursor st feedName pub).latestDates },
             send_telegram_message cfg msg)

/-! ## Feeds, the polling pass, and the test mode -/

/-- The configured feed list (src lines 27-34): name and URL. -/
def FEEDS : List (String × String) :=
  [ ("SEC 8-K", "https://www.sec.gov/cgi-bin/browse-edgar?action=getcurrent&type=8-K&output=atom"),
    ("SEC S-4", "https://www.sec.gov/cgi-bin/browse-edgar?action=getcurrent&type=S-4&output=atom"),
    ("SEC SC TO-C", "https://www.sec.gov/cgi-bin/browse-edgar?action=getcurrent&type=SC+TO-C&output=atom"),
    ("SEC SC 13D", "https://www.sec.gov/cgi-bin/browse-edgar?action=getcurrent&type=SC+13D&output=atom"),
    ("SEC DEFM14A", "https://www.sec.gov/cgi-bin/browse-edgar?action=getcurrent&type=DEFM14A&output=atom"),
    ("PR Newswire M&A", "https://www.prnewswire.com/rss/Acquisitions-Mergers-and-Takeovers-list.rss") ]

/-- Process the entries of one feed in order, threading the state and
concatenating the emitted actions. -/
def processEntries (cfg : Config) (w : World) (feedName : String) :
    List Entry → BotState → BotState × List Action
  | [], st => (st, [])
  | e :: es, st =>
      let r := process_entry cfg w feedName e st
      let rs := processEntries cfg w feedName es r.1
      (rs.1, r.2 ++ rs.2)

/-- One pass over all configured feeds, the loop body shared by the
monitor loop (src lines 302-309) and the test mode (src lines 283-291). -/
def run_feeds_once (cfg : Config) (w : World) (st : BotState) : BotState × List Action :=
  FEEDS.foldl
    (fun acc feed =>
      let r := processEntries cfg w feed.1 (w.parseFeed feed.2) acc.1
      (r.1, acc.2 ++ r.2))
    (st, [])

/-- Function `test_for_date` (src lines 276-292): set every feed cursor to one
second before (the modelled timestamp of) the given date, then run a
single pass over all feeds through the ordinary processing path. -/
def test_for_date (cfg : Config) (w : World) (testDt : Int) (st : BotState) :
    BotState × List Action :=
  run_feeds_once cfg w { st with latestDates := fun _ => testDt - 1 }

/-! ## Auxiliary notions used in theorem statements -/

/-- The matcher state reached by advancing `n` positions into the
input, tracking the previously consumed character (used to state that a
search result is leftmost). -/
def posState (prev : Option Char) (s : List Char) : Nat → Option Char × List Char
  | 0 => (prev, s)
  | n + 1 =>
      match s with
      | [] => (prev, [])
      | c :: cs => posState (some c) cs n

/-- The acceptance condition of the symbol-search loop: a truthy symbol
whose quote type is `"EQUITY"` or `"ETF"`. -/
def validQuote (q : Quote) : Prop :=
  q.symbol ≠ "" ∧ (q.quoteType = "EQUITY" ∨ q.quoteType = "ETF")

instance (q : Quote) : Decidable (validQuote q) := by
  unfold validQuote; infer_instance

/-! Concrete fixtures used by witnesses and counterexamples. -/

/-- A world in which every external call fails or returns nothing and
HTML stripping is the identity. -/
def wNone : World :=
  { getText := id, httpGet := fun _ => none, searchQuotes := fun _ => none,
    marketPrice := fun _ => none, parseFeed := fun _ => [],
    telegramOk := fun _ => true }

/-- A world whose symbol search returns one ETF quote. -/
def wETF : World :=
  { wNone with searchQuotes := fun _ => some [⟨"SPY", "ETF"⟩] }

/-- A world whose symbol search returns an empty-symbol quote, an index
quote, and then an equity quote. -/
def wMix : World :=
  { wNone with
    searchQuotes := fun _ => some [⟨"", "EQUITY"⟩, ⟨"^GSPC", "INDEX"⟩, ⟨"ACME", "EQUITY"⟩] }

/-- A sample entry that the classifier accepts. -/
def eMerger : Entry :=
  { link := "http://x/1", title := some "Deal",
    updatedParsed := some 100, publishedParsed := none, createdParsed := none,
    content := none,
    summary := some "definitive agreement to acquire Widget Corp", description := none }

/-- A world whose first configured feed yields the sample entry. -/
def wFeed : World :=
  { wNone with parseFeed := fun u =>
      if u = "https://www.sec.gov/cgi-bin/browse-edgar?action=getcurrent&type=8-K&output=atom" then
        [eMerger]
      else [] }

def cfgT : Config := { botToken := "token", chatID := "chat" }

def stEmpty : BotState := { sentLinks := [], latestDates := fun _ => 0 }

def stSeen : BotState := { sentLinks := ["http://x/1"], latestDates := fun _ => 0 }

end EdgarBot

namespace EdgarBot

/-! Smoke tests of the engine (concrete evaluation). -/

example : reTest (strCI "abc") "xxABCz" = true := by decide

example : reTest (.seq .wordB (.seq (strCI "cat") .wordB)) "a cat!" = true := by decide

example : reTest (.seq .wordB (.seq (strCI "cat") .wordB)) "concat" = false := by decide

example : reSearchIdx (.seq (litc 'b') (.group 1 (plusG digit))) "ab12c" =
    some (1, [(1, ['1', '2'])]) := by decide

end EdgarBot

namespace EdgarBot

/-! ## Helper lemmas -/

theorem toNat_ofNat_valid (m : Nat) (h65 : 65 ≤ m) (h90 : m ≤ 90) :
    (Char.ofNat m).toNat = m := by
  interval_cases m <;> decide

theorem pyUpperChar_idem (c : Char) : pyUpperChar (pyUpperChar c) = pyUpperChar c := by
  unfold pyUpperChar
  split
  case isTrue h =>
    rw [if_neg]
    rw [toNat_ofNat_valid (c.toNat - 32) (by omega) (by omega)]
    omega
  case isFalse h => rfl

theorem normChar_eval_dot {c : Char} (h : pyUpperChar c = '.') : normChar c = '-' := by
  simp [normChar, h]

theorem normChar_eval {c : Char} (h : ¬ pyUpperChar c = '.') :
    normChar c = pyUpperChar c := by
  simp [normChar, h]

theorem normChar_idem (c : Char) : normChar (normChar c) = normChar c := by
  by_cases h : pyUpperChar c = '.'
  · rw [normChar_eval_dot h]; decide
  · have h2 : ¬ pyUpperChar (pyUpperChar c) = '.' := by rw [pyUpperChar_idem]; exact h
    rw [normChar_eval h, normChar_eval h2, pyUpperChar_idem]

theorem normChar_ne_dot (c : Char) : normChar c ≠ '.' := by
  by_cases h : pyUpperChar c = '.'
  · rw [normChar_eval_dot h]; decide
  · rw [normChar_eval h]; exact h

theorem normalizeTicker_idem (s : String) :
    normalizeTicker (normalizeTicker s) = normalizeTicker s := by
  unfold normalizeTicker
  simp only [List.map_map]
  congr 1
  exact List.map_congr_left (fun c _ => normChar_idem c)

theorem normalizeTicker_no_dot (s : String) : '.' ∉ (normalizeTicker s).data := by
  unfold normalizeTicker
  intro hmem
  rcases List.mem_map.mp hmem with ⟨c, _, hc⟩
  exact normChar_ne_dot c hc

theorem process_entry_seen (cfg : Config) (w : World) (feedName : String)
    (e : Entry) (st : BotState) (hseen : e.link ∈ st.sentLinks) :
    process_entry cfg w feedName e st = (st, []) := by
  unfold process_entry
  cases hd : entryPubDate e with
  | none => rfl
  | some pub =>
      dsimp only
      rw [if_pos (Or.inr hseen)]

theorem process_entry_eq_skip (cfg : Config) (w : World) (feedName : String)
    (e : Entry) (st : BotState) (pub : Int)
    (hd : entryPubDate e = some pub)
    (hc : pub ≤ st.latestDates feedName ∨ e.link ∈ st.sentLinks) :
    process_entry cfg w feedName e st = (st, []) := by
  unfold process_entry
  simp only [hd]
  rw [if_pos hc]

theorem process_entry_eq_reject (cfg : Config) (w : World) (feedName : String)
    (e : Entry) (st : BotState) (pub : Int)
    (hd : entryPubDate e = some pub)
    (hc : ¬(pub ≤ st.latestDates feedName ∨ e.link ∈ st.sentLinks))
    (hcl : classify (entryTitle e) (entryContent w e) ≠ .Positive) :
    process_entry cfg w feedName e st = (advanceCursor st feedName pub, []) := by
  unfold process_entry
  simp only [hd]
  rw [if_neg hc]
  cases hcl2 : classify (entryTitle e) (entryContent w e) with
  | Positive => exact absurd hcl2 hcl
  | NegativeOverride => rfl
  | NoMatch => rfl

theorem process_entry_eq_pos (cfg : Config) (w : World) (feedName : String)
    (e : Entry) (st : BotState) (pub : Int)
    (hd : entryPubDate e = some pub)
    (hc : ¬(pub ≤ st.latestDates feedName ∨ e.link ∈ st.sentLinks))
    (hcl : classify (entryTitle e) (entryContent w e) = .Positive) :
    process_entry cfg w feedName e st =
      ({ sentLinks := e.link :: st.sentLinks,
         latestDates := (advanceCursor st feedName pub).latestDates },
       send_telegram_message cfg
         (buildMessage w feedName (entryTitle e) (entryContent w e) pub e.link
           (resolveTicker w (entryTitle e) (entryContent w e) e.link))) := by
  unfold process_entry
  simp only [hd]
  rw [if_neg hc]
  simp only [hcl]

theorem advanceCursor_le (st : BotState) (feedName : String) (pub : Int) (f : String) :
    st.latestDates f ≤ (advanceCursor st feedName pub).latestDates f := by
  unfold advanceCursor
  dsimp only
  split
  case isTrue h => rw [h]; exact le_max_left _ _
  case isFalse h => exact le_refl _

theorem advanceCursor_at (st : BotState) (feedName : String) (pub : Int) :
    (advanceCursor st feedName pub).latestDates feedName =
      max (st.latestDates feedName) pub := by
  unfold advanceCursor
  simp

end EdgarBot

namespace EdgarBot

/-- Claim C1: the classifier decides on the lowercased concatenation of
title and body; any negative-pattern match rejects the entry regardless
of positive matches (precedence); with no negative and no positive
match the entry is rejected (default-deny); otherwise it is accepted. -/
theorem classifier_follows_spec (title content : String) :
    (NEGATIVE_PATTERNS.any (fun p => reTest p (classifierText title content)) = true →
        classify title content = .NegativeOverride ∧
        isCandidate (classify title content) = false) ∧
    (NEGATIVE_PATTERNS.any (fun p => reTest p (classifierText title content)) = false →
        POSITIVE_PATTERNS.any (fun p => reTest p (classifierText title content)) = false →
        classify title content = .NoMatch ∧
        isCandidate (classify title content) = false) ∧
    (NEGATIVE_PATTERNS.any (fun p => reTest p (classifierText title content)) = false →
        POSITIVE_PATTERNS.any (fun p => reTest p (classifierText title content)) = true →
        classify title content = .Positive ∧
        isCandidate (classify title content) = true) := by
  unfold classify
  cases hneg : NEGATIVE_PATTERNS.any (fun p => reTest p (classifierText title content)) <;>
    cases hpos : POSITIVE_PATTERNS.any (fun p => reTest p (classifierText title content)) <;>
      simp [hneg, hpos, isCandidate]

/-- Witness for C1 at a concrete input containing both a negative and a
positive keyword: the negative override wins. -/
theorem classifier_follows_spec_witness :
    classify "Merger completed" "" = .NegativeOverride ∧
    isCandidate (classify "Merger completed" "") = false :=
  (classifier_follows_spec "Merger completed" "").1 (by decide)

/-- Claim C2: an entry whose link is already in the seen-links set is
skipped with no state change and no notification, even when its
timestamp is strictly newer than the feed cursor. -/
theorem seen_set_dominates (cfg : Config) (w : World) (feedName : String)
    (e : Entry) (st : BotState) (pub : Int)
    (_hdate : entryPubDate e = some pub)
    (_hnewer : st.latestDates feedName < pub)
    (hseen : e.link ∈ st.sentLinks) :
    process_entry cfg w feedName e st = (st, []) :=
  process_entry_seen cfg w feedName e st hseen

/-- Witness for C2: the sample entry is dated 100, the cursor is at 0,
yet the entry is skipped because its link is in the seen set. -/
theorem seen_set_dominates_witness :
    entryPubDate eMerger = some 100 ∧
    stSeen.latestDates "SEC 8-K" < 100 ∧
    eMerger.link ∈ stSeen.sentLinks ∧
    process_entry cfgT wNone "SEC 8-K" eMerger stSeen = (stSeen, []) :=
  ⟨rfl, by decide, by decide,
    seen_set_dominates cfgT wNone "SEC 8-K" eMerger stSeen 100 rfl (by decide) (by decide)⟩

/-- Claim C6: per feed, the timestamp cursor never decreases across
entry processing, and every entry that passes the dedup gate (dated,
newer than the cursor, link unseen) advances the cursor to
`max(cursor, entry.timestamp)` whether the classifier rejects it or a
notification is sent. -/
theorem cursor_monotone (cfg : Config) (w : World) (feedName : String)
    (e : Entry) (st : BotState) :
    (∀ f, st.latestDates f ≤ (process_entry cfg w feedName e st).1.latestDates f) ∧
    (∀ pub, entryPubDate e = some pub → st.latestDates feedName < pub →
        e.link ∉ st.sentLinks →
        (process_entry cfg w feedName e st).1.latestDates feedName =
          max (st.latestDates feedName) pub) := by
  constructor
  · intro f
    cases hd : entryPubDate e with
    | none =>
        unfold process_entry
        rw [hd]
    | some pub =>
        by_cases hc : pub ≤ st.latestDates feedName ∨ e.link ∈ st.sentLinks
        · rw [process_entry_eq_skip cfg w feedName e st pub hd hc]
        · by_cases hcl : classify (entryTitle e) (entryContent w e) = .Positive
          · rw [process_entry_eq_pos cfg w feedName e st pub hd hc hcl]
            exact advanceCursor_le st feedName pub f
          · rw [process_entry_eq_reject cfg w feedName e st pub hd hc hcl]
            exact advanceCursor_le st feedName pub f
  · intro pub hd hnewer hseen
    have hc : ¬(pub ≤ st.latestDates feedName ∨ e.link ∈ st.sentLinks) := by
      push_neg
      exact ⟨hnewer, hseen⟩
    by_cases hcl : classify (entryTitle e) (entryContent w e) = .Positive
    · rw [process_entry_eq_pos cfg w feedName e st pub hd hc hcl]
      exact advanceCursor_at st feedName pub
    · rw [process_entry_eq_reject cfg w feedName e st pub hd hc hcl]
      exact advanceCursor_at st feedName pub

/-- Witness for C6: another feed cursor is untouched, and the processed
feed cursor lands on `max 0 100 = 100`. -/
theorem cursor_monotone_witness :
    stEmpty.latestDates "SEC S-4" ≤
      (process_entry cfgT wNone "SEC 8-K" eMerger stEmpty).1.latestDates "SEC S-4" ∧
    (process_entry cfgT wNone "SEC 8-K" eMerger stEmpty).1.latestDates "SEC 8-K" =
      max (stEmpty.latestDates "SEC 8-K") 100 :=
  ⟨(cursor_monotone cfgT wNone "SEC 8-K" eMerger stEmpty).1 "SEC S-4",
   (cursor_monotone cfgT wNone "SEC 8-K" eMerger stEmpty).2 100 rfl (by decide) (by decide)⟩

/-- Claim C8: inline ticker normalization is idempotent (every string,
and in particular every symbol the extractor returns, is a fixed point
of a second normalization) and dots are normalized to hyphens, so an
extracted symbol never contains a dot.  Determinism holds by
construction: `extract_ticker` is a pure function. -/
theorem ticker_normalization_idempotent :
    (∀ s, normalizeTicker (normalizeTicker s) = normalizeTicker s) ∧
    (∀ text t, extract_ticker text = some t →
        normalizeTicker t = t ∧ '.' ∉ t.data) := by
  constructor
  · exact normalizeTicker_idem
  · intro text t h
    unfold extract_ticker at h
    rcases Option.map_eq_some'.mp h with ⟨s, _, rfl⟩
    exact ⟨normalizeTicker_idem s, normalizeTicker_no_dot s⟩

/-- Witness for C8 at a dotted exchange-qualified token: `BRK.B`
normalizes to `BRK-B`, which is a fixed point and dot-free. -/
theorem ticker_normalization_idempotent_witness :
    normalizeTicker "BRK-B" = "BRK-B" ∧ '.' ∉ ("BRK-B").data :=
  ticker_normalization_idempotent.2 "Shares (NYSE: BRK.B) rose" "BRK-B" (by decide)

/-- Claim C9: for an entry that passes the dedup gate and the
classifier, the link is marked seen and the cursor advanced for every
credential configuration and every network outcome — the dispatch
result is never consulted (`send_telegram_message` swallows its
errors) — and consequently any later processing of the same link is a
no-op, so a failed notification is never retried. -/
theorem dispatch_failure_still_marks (cfg : Config) (w : World) (feedName : String)
    (e : Entry) (st : BotState) (pub : Int)
    (hd : entryPubDate e = some pub)
    (hnewer : st.latestDates feedName < pub)
    (hseen : e.link ∉ st.sentLinks)
    (hcl : classify (entryTitle e) (entryContent w e) = .Positive) :
    e.link ∈ (process_entry cfg w feedName e st).1.sentLinks ∧
    (process_entry cfg w feedName e st).1.latestDates feedName =
      max (st.latestDates feedName) pub ∧
    ∀ cfg2 w2 st2, e.link ∈ st2.sentLinks →
      process_entry cfg2 w2 feedName e st2 = (st2, []) := by
  have hc : ¬(pub ≤ st.latestDates feedName ∨ e.link ∈ st.sentLinks) := by
    push_neg
    exact ⟨hnewer, hseen⟩
  rw [process_entry_eq_pos cfg w feedName e st pub hd hc hcl]
  refine ⟨List.mem_cons_self _ _, advanceCursor_at st feedName pub, ?_⟩
  intro cfg2 w2 st2 h2
  exact process_entry_seen cfg2 w2 feedName e st2 h2

/-- Witness for C9 with missing credentials (a dispatch-failure mode):
the link is still marked seen and the cursor still advances. -/
theorem dispatch_failure_still_marks_witness :
    eMerger.link ∈ (process_entry ⟨"", ""⟩ wNone "SEC 8-K" eMerger stEmpty).1.sentLinks ∧
    (process_entry ⟨"", ""⟩ wNone "SEC 8-K" eMerger stEmpty).1.latestDates "SEC 8-K" =
      max (stEmpty.latestDates "SEC 8-K") 100 ∧
    ∀ cfg2 w2 st2, eMerger.link ∈ st2.sentLinks →
      process_entry cfg2 w2 "SEC 8-K" eMerger st2 = (st2, []) :=
  dispatch_failure_still_marks ⟨"", ""⟩ wNone "SEC 8-K" eMerger stEmpty 100 rfl
    (by decide) (by decide) (by decide)

end EdgarBot

namespace EdgarBot

/-- Claim C4: when both prices are present and the market price is
nonzero, the notification carries a premium line whose value is
`(offer - market) / market * 100` rendered to one decimal place; when
the market price is zero or either price is absent, the premium line is
omitted (the source catches the `ZeroDivisionError`, so nothing
propagates — the model is total). -/
theorem premium_line_spec (offer market : Option ℚ) :
    (∀ o m, offer = some o → market = some m → m ≠ 0 →
        MsgPart.premium (roundTo1 ((o - m) / m * 100)) ∈ pricingLines offer market) ∧
    ((offer = none ∨ market = none ∨ market = some 0) →
        ∀ q, MsgPart.premium q ∉ pricingLines offer market) := by
  constructor
  · rintro o m rfl rfl hm
    simp [pricingLines, hm]
  · rintro (rfl | rfl | rfl) q
    · cases market <;> simp [pricingLines]
    · cases offer <;> simp [pricingLines]
    · cases offer <;> simp [pricingLines]

/-- Witness for C4: offer 110 and market 100 produce a premium line of
10; a zero market price omits the line. -/
theorem premium_line_spec_witness :
    MsgPart.premium 10 ∈ pricingLines (some 110) (some 100) ∧
    ∀ q, MsgPart.premium q ∉ pricingLines (some 110) (some 0) := by
  constructor
  · have h := (premium_line_spec (some 110) (some 100)).1 110 100 rfl rfl (by norm_num)
    have hr : roundTo1 ((110 - 100) / 100 * 100) = (10 : ℚ) := by
      norm_num [roundTo1]
    rwa [hr] at h
  · exact (premium_line_spec (some 110) (some 0)).2 (Or.inr (Or.inr rfl))

/-- Counterexample to C5 as stated: the symbol search also accepts ETF
quotes, so a ticker whose instrument type is not equity can be
returned. -/
theorem lookup_accepts_etf_counterexample :
    lookup_ticker_by_name wETF "spdr trust" = some "SPY" ∧
    wETF.searchQuotes "spdr trust" = some [⟨"SPY", "ETF"⟩] ∧
    ("ETF" : String) ≠ "EQUITY" := by decide

theorem findQuote_first_valid :
    ∀ (qs : List Quote) (t : String), findQuote qs = some t →
      ∃ pre q suf, qs = pre ++ q :: suf ∧ q.symbol = t ∧ validQuote q ∧
        ∀ q2 ∈ pre, ¬ validQuote q2 := by
  intro qs
  induction qs with
  | nil => intro t h; cases h
  | cons q qs ih =>
      intro t h
      unfold findQuote at h
      split at h
      case isTrue hv =>
        exact ⟨[], q, qs, rfl, Option.some.inj h, hv, by intro q2 h2; cases h2⟩
      case isFalse hv =>
        obtain ⟨pre, q2, suf, h1, h2, h3, h4⟩ := ih t h
        refine ⟨q :: pre, q2, suf, by rw [h1]; rfl, h2, h3, ?_⟩
        intro q3 h3
        rcases List.mem_cons.mp h3 with rfl | h3
        · exact hv
        · exact h4 q3 h3

/-- Claim C5 (amended): the name lookup accepts the first result with a
truthy symbol whose instrument type is `"EQUITY"` or `"ETF"`; every
earlier result fails that test, and nothing is returned for an empty
name or a failed search. -/
theorem lookup_first_equity_or_etf (w : World) (name t : String)
    (h : lookup_ticker_by_name w name = some t) :
    name ≠ "" ∧
    ∃ quotes pre q suf, w.searchQuotes name = some quotes ∧
      quotes = pre ++ q :: suf ∧ q.symbol = t ∧ validQuote q ∧
      ∀ q2 ∈ pre, ¬ validQuote q2 := by
  unfold lookup_ticker_by_name at h
  split at h
  case isTrue h0 => cases h
  case isFalse h0 =>
    refine ⟨h0, ?_⟩
    cases hq : w.searchQuotes name with
    | none => rw [hq] at h; cases h
    | some quotes =>
        rw [hq] at h
        obtain ⟨pre, q, suf, h1, h2, h3, h4⟩ := findQuote_first_valid quotes t h
        exact ⟨quotes, pre, q, suf, rfl, h1, h2, h3, h4⟩

/-- Witness for amended C5: an empty-symbol quote and an index quote
are passed over; the first equity quote is returned. -/
theorem lookup_first_equity_or_etf_witness :
    ("acme corp" : String) ≠ "" ∧
    ∃ quotes pre q suf, wMix.searchQuotes "acme corp" = some quotes ∧
      quotes = pre ++ q :: suf ∧ q.symbol = "ACME" ∧ validQuote q ∧
      ∀ q2 ∈ pre, ¬ validQuote q2 :=
  lookup_first_equity_or_etf wMix "acme corp" "ACME" (by decide)

end EdgarBot

namespace EdgarBot

/-- Claim C3: ticker resolution is a fallback cascade — inline
extraction from the content, then full-page fetch and re-extraction,
then the name-based lookup block — where each later stage runs only if
every earlier stage produced no (truthy) ticker, and an all-stage
failure yields no ticker.  The cascade is a total function: every
network or service failure is already modelled as `none` by the stage
functions (the source catches all their exceptions), so no exception
escapes the resolver. -/
theorem resolver_cascade (w : World) (title content link : String) :
    (truthy (extract_ticker content) = true →
        resolveTicker w title content link =
          ⟨extract_ticker content, none, [.inline]⟩) ∧
    (truthy (extract_ticker content) = false →
        truthy (fetch_full_text_ticker w link) = true →
        resolveTicker w title content link =
          ⟨fetch_full_text_ticker w link, none, [.inline, .fullText]⟩) ∧
    (truthy (extract_ticker content) = false →
        truthy (fetch_full_text_ticker w link) = false →
        (resolveTicker w title content link).steps =
          [.inline, .fullText, .nameLookup] ∧
        (resolveTicker w title content link).targetName =
          pyOr (extract_target_name title) (extract_target_name content)) ∧
    (truthy (extract_ticker content) = false →
        truthy (fetch_full_text_ticker w link) = false →
        (∀ n, pyOr (extract_target_name title) (extract_target_name content) = some n →
            lookup_ticker_by_name w n = none) →
        lookup_ticker_by_name w title = none →
        (resolveTicker w title content link).ticker = none) := by
  refine ⟨?_, ?_, ?_, ?_⟩
  · intro h1
    simp [resolveTicker, h1]
  · intro h1 h2
    simp [resolveTicker, h1, h2]
  · intro h1 h2
    simp only [resolveTicker, h1, h2, Bool.false_eq_true, if_false]
    refine ⟨?_, ?_⟩ <;> split <;> first
      | rfl
      | (split <;> rfl)
  · intro h1 h2 h3 h4
    simp only [resolveTicker, h1, h2, Bool.false_eq_true, if_false]
    cases htn : pyOr (extract_target_name title) (extract_target_name content) with
    | none => simp [htn, truthy, h4]
    | some n =>
        by_cases hn : n = ""
        · subst hn
          simp [htn, truthy, h4]
        · simp [htn, truthy, hn, h3 n htn, h4]

/-- Witness for C3 in the all-fail world: no stage yields a ticker and
the resolver returns none. -/
theorem resolver_cascade_witness :
    (resolveTicker wNone "some deal" "no symbol here" "http://x/2").ticker = none :=
  (resolver_cascade wNone "some deal" "no symbol here" "http://x/2").2.2.2
    (by decide) (by decide)
    (by
      intro n _
      unfold lookup_ticker_by_name
      split
      · rfl
      · rfl)
    (by
      unfold lookup_ticker_by_name
      split
      · rfl
      · rfl)

end EdgarBot

namespace EdgarBot

theorem send_telegram_no_print (cfg : Config) (parts : List MsgPart) :
    ∀ a ∈ send_telegram_message cfg parts, isPrintOut a = false := by
  intro a ha
  unfold send_telegram_message at ha
  split at ha
  · cases ha
  · rcases List.mem_singleton.mp ha with rfl
    rfl

theorem process_entry_no_print (cfg : Config) (w : World) (feedName : String)
    (e : Entry) (st : BotState) :
    ∀ a ∈ (process_entry cfg w feedName e st).2, isPrintOut a = false := by
  intro a ha
  cases hd : entryPubDate e with
  | none =>
      unfold process_entry at ha
      rw [hd] at ha
      cases ha
  | some pub =>
      by_cases hc : pub ≤ st.latestDates feedName ∨ e.link ∈ st.sentLinks
      · rw [process_entry_eq_skip cfg w feedName e st pub hd hc] at ha
        cases ha
      · by_cases hcl : classify (entryTitle e) (entryContent w e) = .Positive
        · rw [process_entry_eq_pos cfg w feedName e st pub hd hc hcl] at ha
          exact send_telegram_no_print cfg _ a ha
        · rw [process_entry_eq_reject cfg w feedName e st pub hd hc hcl] at ha
          cases ha

theorem processEntries_no_print (cfg : Config) (w : World) (feedName : String) :
    ∀ (es : List Entry) (st : BotState),
      ∀ a ∈ (processEntries cfg w feedName es st).2, isPrintOut a = false := by
  intro es
  induction es with
  | nil => intro st a ha; cases ha
  | cons e es ih =>
      intro st a ha
      unfold processEntries at ha
      dsimp only at ha
      rcases List.mem_append.mp ha with h | h
      · exact process_entry_no_print cfg w feedName e st a h
      · exact ih _ a h

theorem foldFeeds_no_print (cfg : Config) (w : World) :
    ∀ (feeds : List (String × String)) (acc : BotState × List Action),
      (∀ a ∈ acc.2, isPrintOut a = false) →
      ∀ a ∈ (feeds.foldl
          (fun acc feed =>
            let r := processEntries cfg w feed.1 (w.parseFeed feed.2) acc.1
            (r.1, acc.2 ++ r.2)) acc).2,
        isPrintOut a = false := by
  intro feeds
  induction feeds with
  | nil => intro acc hacc a ha; exact hacc a ha
  | cons f fs ih =>
      intro acc hacc a ha
      rw [List.foldl_cons] at ha
      refine ih _ ?_ a ha
      intro b hb
      dsimp only at hb
      rcases List.mem_append.mp hb with h | h
      · exact hacc b h
      · exact processEntries_no_print cfg w f.1 _ _ b h

/-- Claim C7 (amended): `--test-date` runs exactly one pass over all
configured feeds with every feed cursor set to one second before the
given date, but notifications go through the ordinary Telegram dispatch
path; nothing is printed in their place. -/
theorem test_mode_single_pass (cfg : Config) (w : World) (testDt : Int) (st : BotState) :
    test_for_date cfg w testDt st =
      run_feeds_once cfg w { st with latestDates := fun _ => testDt - 1 } ∧
    (test_for_date cfg w testDt st).2.all (fun a => !(isPrintOut a)) = true := by
  refine ⟨rfl, ?_⟩
  rw [List.all_eq_true]
  intro a ha
  have h := foldFeeds_no_print cfg w FEEDS
    ({ st with latestDates := fun _ => testDt - 1 }, [])
    (by intro b hb; cases hb) a ha
  rw [Bool.not_eq_true']
  exact h

/-- Counterexample to C7 as stated: with credentials present, the test
pass sends a Telegram dispatch action and prints nothing. -/
theorem test_mode_dispatch_counterexample :
    (test_for_date cfgT wFeed 100 stEmpty).2.any isSendTelegram = true ∧
    (test_for_date cfgT wFeed 100 stEmpty).2.any isPrintOut = false := by decide

end EdgarBot

namespace EdgarBot

theorem reSearchIdxAux_leftmost (r : Regex) :
    ∀ (s : List Char) (prev : Option Char) (i k : Nat)
      (caps : List (Nat × List Char)),
      reSearchIdxAux r prev s i = some (k, caps) →
      i ≤ k ∧
      ∀ d, d < k - i →
        matchEnds r ⟨[], (posState prev s d).1, (posState prev s d).2⟩ = [] := by
  intro s
  induction s with
  | nil =>
      intro prev i k caps h
      rw [reSearchIdxAux.eq_1] at h
      cases hm : matchEnds r ⟨[], prev, []⟩ with
      | nil => rw [hm] at h; cases h
      | cons st rest =>
          rw [hm] at h
          obtain ⟨rfl, rfl⟩ : i = k ∧ st.caps = caps := by
            have := Option.some.inj h
            exact ⟨congrArg Prod.fst this, congrArg Prod.snd this⟩
          exact ⟨le_refl _, by intro d hd; omega⟩
  | cons c cs ih =>
      intro prev i k caps h
      rw [reSearchIdxAux.eq_2] at h
      cases hm : matchEnds r ⟨[], prev, c :: cs⟩ with
      | cons st rest =>
          rw [hm] at h
          obtain ⟨rfl, rfl⟩ : i = k ∧ st.caps = caps := by
            have := Option.some.inj h
            exact ⟨congrArg Prod.fst this, congrArg Prod.snd this⟩
          exact ⟨le_refl _, by intro d hd; omega⟩
      | nil =>
          rw [hm] at h
          obtain ⟨hik, hmin⟩ := ih (some c) (i + 1) k caps h
          refine ⟨by omega, ?_⟩
          intro d hd
          cases d with
          | zero => simpa [posState] using hm
          | succ e =>
              have he : e < k - (i + 1) := by omega
              simpa [posState] using hmin e he

/-- Claim C10: whenever the text contains a dollar-amount token (the
first, context-free pattern of `extract_offer_price` matches, at the
leftmost such position `k`, with a parseable capture), the extraction
returns exactly the parsed value of that leftmost occurrence with
thousands separators stripped; the later contextual patterns never
influence the result. -/
theorem offer_price_leftmost_dollar (text : String) (k : Nat)
    (caps : List (Nat × List Char)) (s : String) (v : ℚ)
    (h1 : reSearchIdx dollarAmountRe text = some (k, caps))
    (h2 : capGroup 1 caps = some s)
    (h3 : parseDec s.data = some v) :
    extract_offer_price text = some v ∧
    ∀ d, d < k →
      matchEnds dollarAmountRe
        ⟨[], (posState none text.data d).1, (posState none text.data d).2⟩ = [] := by
  constructor
  · unfold extract_offer_price offerPricePatterns offerPriceLoop
    rw [reSearch, h1]
    simp only [Option.map_some']
    rw [h2]
    simp only [Option.some_bind]
    rw [h3]
  · intro d hd
    unfold reSearchIdx at h1
    have := (reSearchIdxAux_leftmost dollarAmountRe text.data none 0 k caps h1).2 d
      (by omega)
    exact this

/-- Witness for C10: the leftmost dollar token of a concrete text is at
position 18 and the extraction returns its value. -/
theorem offer_price_leftmost_dollar_witness :
    extract_offer_price "Acme will pay for $9 cash" = some 9 ∧
    ∀ d, d < 18 →
      matchEnds dollarAmountRe
        ⟨[], (posState none ("Acme will pay for $9 cash").data d).1,
          (posState none ("Acme will pay for $9 cash").data d).2⟩ = [] :=
  offer_price_leftmost_dollar "Acme will pay for $9 cash" 18 [(1, ['9'])] "9" 9
    (by decide) (by decide) (by decide)

end EdgarBot
